import Mathlib

/-!
Verification of the version-string utility `lib/meta.py` (MyPaint).

The file is shallowly embedded here. Strings are `List Char` (the Python
code works on byte strings; every relevant operation is byte/character
oriented). The module-level constant `MYPAINT_VERSION` becomes an explicit
parameter `mypaint_version` of the embedded functions, and the filesystem /
subprocess environment that `_get_versions` consults becomes an explicit
`Env` record:

  * `releaseInfo`  — `some r` models `os.path.isfile("release_info")`
    returning true, with `r` the result of `exec`-ing the file and looking
    up the three recognised keys (`dict.get` with a default is modelled by
    `Option.getD`);
  * `hasGitDir`    — `os.path.isdir(".git")`;
  * `gitDescribe`  — `some raw` models `subprocess.check_output` returning
    the bytes `raw` (before `.strip()`), `none` models the invocation
    raising (the bare `except:` branch, which prints a warning and keeps
    the fallback values).

The two regular expressions of `_get_versions` are fixed-shape patterns
matched with `re.match` (anchored) on the already-stripped describe
output; they are embedded as deterministic parsers below, with comments
arguing the equivalence with the backtracking semantics at each point
where greediness could in principle matter.
-/

set_option maxRecDepth 16384

/-- Characters kept out of string literals (quote and backslash), so that
the embedding's literals stay plain. -/
def bslashChar : Char := Char.ofNat 92

/-- The single-quote character `'`. -/
def squoteChar : Char := Char.ofNat 39

/-- The double-quote character `"`. -/
def dquoteChar : Char := Char.ofNat 34

/-- The newline character. -/
def nlChar : Char := Char.ofNat 10

/-- Python `str.strip()` whitespace set: space, tab, newline, carriage
return, vertical tab, form feed. -/
def isPySpace (c : Char) : Bool :=
  c.toNat == 32 || c.toNat == 9 || c.toNat == 10 ||
  c.toNat == 13 || c.toNat == 11 || c.toNat == 12

/-- Python `str.strip()`: drop leading and trailing whitespace. -/
def pyStrip (s : List Char) : List Char :=
  (((s.dropWhile isPySpace).reverse).dropWhile isPySpace).reverse

/-- ASCII digit, the byte-string semantics of the regex class `\d`. -/
def isAsciiDigit (c : Char) : Bool :=
  48 ≤ c.toNat && c.toNat ≤ 57

/-- The regex class `[0-9a-f]` under `re.IGNORECASE`: a hexadecimal digit
in either case. -/
def isHexDigit (c : Char) : Bool :=
  (48 ≤ c.toNat && c.toNat ≤ 57) ||
  (97 ≤ c.toNat && c.toNat ≤ 102) ||
  (65 ≤ c.toNat && c.toNat ≤ 70)

/-- ASCII lowercasing, the byte-string notion of case used by
`re.IGNORECASE` on Python 2 `str` patterns. -/
def lowerChar (c : Char) : Char :=
  if 65 ≤ c.toNat && c.toNat ≤ 90 then Char.ofNat (c.toNat + 32) else c

/-- Case-insensitive character comparison (ASCII). -/
def eqCI (a b : Char) : Bool := lowerChar a == lowerChar b

/-- Match the literal `pat` case-insensitively at the head of `s` and
return the remainder.  This is the semantics of a `re.escape`d literal
inside a pattern compiled with `re.IGNORECASE`. -/
def stripPrefixCI : List Char → List Char → Option (List Char)
  | [], s => some s
  | _ :: _, [] => none
  | p :: ps, c :: cs => if eqCI p c then stripPrefixCI ps cs else none

/-- Groups captured by the two describe-output patterns of
`_get_versions`, merged: group 1 of pattern 1 (`nrevs`, decimal digits),
group 2 (`objsha`, hex digits, original case preserved) and group 3
(`dirty`, the literal tail matched case-insensitively).  After the
pattern-2 fallback `nrevs` is the Python int `0` and `dirty` is `None`;
both are falsy exactly like the `none`s used here, and the code only ever
tests them for truthiness. -/
structure DescMatch where
  nrevs : Option (List Char)
  objsha : Option (List Char)
  dirty : Option (List Char)
deriving DecidableEq, Repr

/-- Tail of pattern 1 after the optional `-<digits>` and `-g<hex>` parts:
`(?:-(dirty))?$`.  Succeeds on the empty remainder (group absent) or on
exactly `-dirty` case-insensitively (group = the original five trailing
characters). -/
def matchDirty (r : List Char) : Option (Option (List Char)) :=
  if r.isEmpty then some none
  else
    match stripPrefixCI "-dirty".data r with
    | some [] => some (some (r.drop 1))
    | _ => none

/-- Tail of pattern 1 after the optional `-<digits>` part:
`(?:-g([0-9a-f]+))?(?:-(dirty))?$`.

Deterministic reading of the regex: if the remainder starts with `-g`
followed by at least one hex digit, the greedy `[0-9a-f]+` takes the
maximal hex run; taking a shorter run cannot help, because the
continuation must then start with a hex character while `(?:-(dirty))?$`
only accepts `-` or the end.  If the remainder does not start with
`-g<hex>`, the group is skipped and only `(?:-(dirty))?$` remains. -/
def matchShaDirty (r : List Char) : Option (Option (List Char) × Option (List Char)) :=
  match r with
  | c :: g :: r3 =>
    if c == '-' && eqCI g 'g' then
      let h := r3.takeWhile isHexDigit
      if h.isEmpty then (matchDirty r).map (fun d => (none, d))
      else (matchDirty (r3.dropWhile isHexDigit)).map (fun d => (some h, d))
    else (matchDirty r).map (fun d => (none, d))
  | _ => (matchDirty r).map (fun d => (none, d))

/-- Tail of pattern 1 after the literal `v<base_version>`:
`(?:-(\d+))?(?:-g([0-9a-f]+))?(?:-(dirty))?$`.

Deterministic reading: if the remainder starts with `-<digit>`, the first
group must be taken (skipping it would require the continuation to start
with `-g`, `-d` of `-dirty`, or the end — impossible when a digit
follows the `-`), and the greedy `\d+` takes the maximal digit run (a
shorter run would leave a digit where the continuation needs `-` or the
end). -/
def matchTail1 (rest : List Char) : Option DescMatch :=
  match rest with
  | c :: r1 =>
    if c == '-' then
      let ds := r1.takeWhile isAsciiDigit
      if ds.isEmpty then
        (matchShaDirty rest).map (fun p => ⟨none, p.1, p.2⟩)
      else
        (matchShaDirty (r1.dropWhile isAsciiDigit)).map (fun p => ⟨some ds, p.1, p.2⟩)
    else (matchShaDirty rest).map (fun p => ⟨none, p.1, p.2⟩)
  | [] => (matchShaDirty rest).map (fun p => ⟨none, p.1, p.2⟩)

/-- Pattern 1 of `_get_versions` (re.VERBOSE | re.IGNORECASE, anchored by
`re.match` and a final `$`):

    ^v<base_version>(?:-(\d+))?(?:-g([0-9a-f]+))?(?:-(dirty))?$

`base_version` is inserted through `re.escape`, i.e. matched literally
(case-insensitively).  The input is the stripped describe output, so it
has no trailing newline and `$` means end-of-string. -/
def match1 (base_version s : List Char) : Option DescMatch :=
  match stripPrefixCI ('v' :: base_version) s with
  | none => none
  | some rest => matchTail1 rest

/-- Pattern 2 of `_get_versions`: `^([0-9a-f]{7,})$` (re.IGNORECASE) — a
bare abbreviated object id of at least 7 hex digits, nothing else. -/
def match2 (s : List Char) : Option (List Char) :=
  if 7 ≤ s.length && s.all isHexDigit then some s else none

/-- The combined parse step of `_get_versions`: try pattern 1, then
pattern 2 (`nrevs = 0`, `dirty = None` in the fallback), else fail. -/
def parseDesc (base_version git_desc : List Char) : Option DescMatch :=
  match match1 base_version git_desc with
  | some m => some m
  | none =>
    match match2 git_desc with
    | some sha => some ⟨none, some sha, none⟩
    | none => none

/-- Python truthiness of the optional captured strings (`None` and the
empty string are falsy). -/
def optTruthy (o : Option (List Char)) : Bool :=
  match o with
  | none => false
  | some s => !s.isEmpty

/-- `int(nrevs)` for the digit string captured by `(\d+)`. -/
def digitsToNat (ds : List Char) : Nat :=
  ds.foldl (fun a c => a * 10 + (c.toNat - 48)) 0

/-- Boolean `0 < n`, the `int(nrevs) > 0` test. -/
def natPos (n : Nat) : Bool := decide (0 < n)

/-- The `build_ids` list of `_get_versions`: `gitpfx + "." + objsha`
when an object id was captured, then the literal `"dirty"` when the dirty
flag was captured. -/
def buildIds (gitpfx : List Char) (m : DescMatch) : List (List Char) :=
  (if optTruthy m.objsha then [gitpfx ++ '.' :: m.objsha.getD []] else []) ++
  (if optTruthy m.dirty then ["dirty".data] else [])

/-- `".".join`. -/
def joinDots : List (List Char) → List Char
  | [] => []
  | [x] => x
  | x :: xs => x ++ '.' :: joinDots xs

/-- The build-metadata step at the end of the git branch of
`_get_versions`: if any build ids were collected, the ceremonial version
becomes `formal_version + "+" + ".".join(build_ids)`; otherwise the
ceremonial version is left as it was. -/
def applyBuild (gitpfx : List Char) (m : DescMatch)
    (formal_version ceremonial_version : List Char) : List Char :=
  let ids := buildIds gitpfx m
  if ids.isEmpty then ceremonial_version
  else formal_version ++ '+' :: joinDots ids

/-- Python 2 repr of a byte string: quote choice (single quotes unless the
string contains `'` and no `"`). -/
def chooseQuote (s : List Char) : Char :=
  if s.contains squoteChar && !(s.contains dquoteChar) then dquoteChar
  else squoteChar

/-- Lowercase hex digit of a nibble, as produced by `\x%02x` escapes. -/
def hexDigitChar (n : Nat) : Char :=
  if n < 10 then Char.ofNat (48 + n) else Char.ofNat (87 + n)

/-- One character of a Python 2 `str` repr body: the quote char and the
backslash are backslash-escaped, tab/newline/carriage-return get their
letter escapes, other characters outside printable ASCII get `\xHH`, and
everything else is copied verbatim. -/
def escapeChar (q c : Char) : List Char :=
  if c == q || c == bslashChar then [bslashChar, c]
  else if c == Char.ofNat 9 then [bslashChar, 't']
  else if c == nlChar then [bslashChar, 'n']
  else if c == Char.ofNat 13 then [bslashChar, 'r']
  else if c.toNat < 32 || 127 ≤ c.toNat then
    [bslashChar, 'x', hexDigitChar (c.toNat / 16), hexDigitChar (c.toNat % 16)]
  else [c]

/-- Repr body: every character escaped. -/
def escapeStr (q : Char) (s : List Char) : List Char :=
  (s.map (escapeChar q)).flatten

/-- Python 2 `repr` of a byte string, as used by `%r` formatting and by
the parse-error message of `_get_versions`. -/
def pyRepr (s : List Char) : List Char :=
  let q := chooseQuote s
  q :: (escapeStr q s ++ [q])

/-- `" ".join(cmd)` for `cmd = ["git", "describe", "--tags", "--long",
"--dirty", "--always"]`. -/
def gitDescribeCmd : List Char :=
  "git describe --tags --long --dirty --always".data

/-- The `RuntimeError` message raised by `_get_versions` when neither
pattern matches the describe output. -/
def parseErrorMsg (base_version git_desc : List Char) : List Char :=
  "Failed to parse output of ".data ++ [dquoteChar] ++ gitDescribeCmd ++ [dquoteChar] ++
  ". The base MYPAINT_VERSION (".data ++ base_version ++
  ") from the code must be present in the output of this command (".data ++
  pyRepr git_desc ++
  "). The local repo may be missing a tag named ".data ++
  [dquoteChar, 'v'] ++ base_version ++ [dquoteChar] ++
  ", or we need to add another case for parsing git output.".data

/-- The `ValueError` message raised by `_get_versions` when the base
version denotes a final release but commits follow its tag. -/
def finalReleaseMsg (base_version : List Char) : List Char :=
  "The code".data ++ [squoteChar] ++ "s MYPAINT_VERSION (".data ++ base_version ++
  ") denotes a final release but there are commits after the tag v".data ++
  base_version ++
  " in this git branch. A new ".data ++ [squoteChar] ++ "vX.Y.Z-alpha".data ++
  [squoteChar] ++
  " phase tag needs to be created for the next version now, and lib.meta.MYPAINT_VERSION needs to be updated to match it.".data

/-- The exceptions `_get_versions` can raise. -/
inductive MetaErr where
  | runtimeError : List Char → MetaErr
  | valueError : List Char → MetaErr
deriving DecidableEq, Repr

/-- The three version-string keys of a `release_info` file, as seen by
`_get_versions` after `exec`-ing the file: each key either bound to a
string or absent. -/
structure RelInfo where
  base : Option (List Char)
  formal : Option (List Char)
  ceremonial : Option (List Char)
deriving DecidableEq, Repr

/-- The environment `_get_versions` consults (see the module comment). -/
structure Env where
  releaseInfo : Option RelInfo
  hasGitDir : Bool
  gitDescribe : Option (List Char)
deriving DecidableEq, Repr

/-- The returned triple `(base_version, formal_version,
ceremonial_version)`. -/
structure Versions where
  base : List Char
  formal : List Char
  ceremonial : List Char
deriving DecidableEq, Repr

/-- Program name constant `MYPAINT_PROGRAM_NAME`. -/
def MYPAINT_PROGRAM_NAME : List Char := "MyPaint".data

/-- Base version constant `MYPAINT_VERSION` embedded in the source. -/
def MYPAINT_VERSION : List Char := "1.2.0-beta.0".data

/-- `lib.meta._get_versions`, with the module constant and the
environment made explicit.  Returns the triple, or the raised exception.

Control flow follows the source: fallbacks first; the `release_info`
branch overrides each string through `dict.get`; the `.git` branch parses
`git describe` output (a failed invocation keeps the fallbacks and only
prints a warning, see `describeWarned`); otherwise the fallbacks are
returned unchanged. -/
def _get_versions (mypaint_version : List Char) (env : Env)
    (gitpfx : List Char) : Except MetaErr Versions :=
  let base_version := mypaint_version
  let formal_version := base_version
  let ceremonial_version := formal_version ++ "+unknown".data
  match env.releaseInfo with
  | some relinfo =>
    Except.ok
      { base := relinfo.base.getD base_version
        formal := relinfo.formal.getD formal_version
        ceremonial := relinfo.ceremonial.getD ceremonial_version }
  | none =>
    if env.hasGitDir then
      match env.gitDescribe with
      | none =>
        -- `subprocess.check_output` raised: warning printed, fallbacks kept.
        Except.ok
          { base := base_version, formal := formal_version
            ceremonial := ceremonial_version }
      | some raw =>
        let git_desc := pyStrip raw
        let base_version := mypaint_version
        let formal_version := mypaint_version
        let ceremonial_version := mypaint_version
        match parseDesc base_version git_desc with
        | none =>
          Except.error (MetaErr.runtimeError (parseErrorMsg base_version git_desc))
        | some m =>
          if optTruthy m.nrevs && natPos (digitsToNat (m.nrevs.getD [])) then
            if !(base_version.contains '-') then
              Except.error (MetaErr.valueError (finalReleaseMsg base_version))
            else
              let formal_version := base_version ++ '.' :: m.nrevs.getD []
              let ceremonial_version := formal_version
              Except.ok
                { base := base_version, formal := formal_version
                  ceremonial := applyBuild gitpfx m formal_version ceremonial_version }
          else
            Except.ok
              { base := base_version, formal := formal_version
                ceremonial := applyBuild gitpfx m formal_version ceremonial_version }
    else
      Except.ok
        { base := base_version, formal := formal_version
          ceremonial := ceremonial_version }

/-- True exactly when `_get_versions` prints its
"Failed to invoke git describe" warning to stderr: no `release_info`,
a `.git` directory, and a failing describe invocation. -/
def describeWarned (env : Env) : Bool :=
  env.releaseInfo.isNone && env.hasGitDir && env.gitDescribe.isNone

/-- One line `KEY=%r\n` of the release-info script. -/
def releaseInfoLine (key value : List Char) : List Char :=
  key ++ '=' :: (pyRepr value ++ [nlChar])

/-- `lib.meta._get_release_info_script`'s formatting step: the text
fragment for a resolved triple. -/
def releaseInfoScript (v : Versions) : List Char :=
  releaseInfoLine "MYPAINT_VERSION_BASE".data v.base ++
  releaseInfoLine "MYPAINT_VERSION_FORMAL".data v.formal ++
  releaseInfoLine "MYPAINT_VERSION_CEREMONIAL".data v.ceremonial

/-- `lib.meta._get_release_info_script`: resolve, then format. -/
def _get_release_info_script (mypaint_version : List Char) (env : Env)
    (gitpfx : List Char) : Except MetaErr (List Char) :=
  (_get_versions mypaint_version env gitpfx).map releaseInfoScript

/-- Value of one hex digit character, either case. -/
def hexVal (c : Char) : Option Nat :=
  if 48 ≤ c.toNat && c.toNat ≤ 57 then some (c.toNat - 48)
  else if 97 ≤ c.toNat && c.toNat ≤ 102 then some (c.toNat - 87)
  else if 65 ≤ c.toNat && c.toNat ≤ 70 then some (c.toNat - 55)
  else none

/-- Evaluate the body of a Python string literal after the opening quote
`q`: characters up to the matching unescaped quote (which must end the
text), with backslash escapes `\\`, `\'`, `\"`, `\t`, `\n`, `\r`, `\xHH`
decoded and unknown escapes kept verbatim (Python 2 semantics for the
escapes the emitter produces). -/
def parsePyLitBody (q : Char) : List Char → Option (List Char)
  | [] => none
  | c :: rest =>
    if c == q then if rest.isEmpty then some [] else none
    else if c == bslashChar then
      match rest with
      | [] => none
      | e :: rest2 =>
        if e == bslashChar || e == squoteChar || e == dquoteChar then
          (parsePyLitBody q rest2).map (fun t => e :: t)
        else if e == 't' then
          (parsePyLitBody q rest2).map (fun t => Char.ofNat 9 :: t)
        else if e == 'n' then
          (parsePyLitBody q rest2).map (fun t => nlChar :: t)
        else if e == 'r' then
          (parsePyLitBody q rest2).map (fun t => Char.ofNat 13 :: t)
        else if e == 'x' then
          match rest2 with
          | h1 :: h2 :: rest3 =>
            match hexVal h1, hexVal h2 with
            | some v1, some v2 =>
              (parsePyLitBody q rest3).map (fun t => Char.ofNat (16 * v1 + v2) :: t)
            | _, _ => none
          | _ => none
        else
          (parsePyLitBody q rest2).map (fun t => c :: e :: t)
    else (parsePyLitBody q rest).map (fun t => c :: t)

/-- Evaluate a Python string literal (single- or double-quoted). -/
def evalPyLit (s : List Char) : Option (List Char) :=
  match s with
  | c :: rest => if c == squoteChar || c == dquoteChar then parsePyLitBody c rest else none
  | [] => none

/-- Split on newline characters (keeping empty segments). -/
def splitLines (s : List Char) : List (List Char) :=
  match s with
  | [] => [[]]
  | c :: rest =>
    let r := splitLines rest
    if c == nlChar then [] :: r
    else
      match r with
      | l :: ls => (c :: l) :: ls
      | [] => [[c]]

/-- Read one line as an assignment `KEY=<string literal>`: the key is
everything before the first `=`, the value the evaluated literal after
it. -/
def parseAssign (line : List Char) : Option (List Char × List Char) :=
  match line.dropWhile (fun c => !(c == '=')) with
  | e :: valtxt =>
    if e == '=' then
      (evalPyLit valtxt).map (fun v => (line.takeWhile (fun c => !(c == '=')), v))
    else none
  | [] => none

/-- Fold one line into the bindings (later assignments win, as with
`exec`); lines that are not assignments of string literals bind
nothing. -/
def applyAssign (r : RelInfo) (line : List Char) : RelInfo :=
  match parseAssign line with
  | some (k, v) =>
    if k = "MYPAINT_VERSION_BASE".data then { r with base := some v }
    else if k = "MYPAINT_VERSION_FORMAL".data then { r with formal := some v }
    else if k = "MYPAINT_VERSION_CEREMONIAL".data then { r with ceremonial := some v }
    else r
  | none => r

/-- The read-back of a `release_info` file: the `exec` of line 154 of the
source restricted to files that are sequences of `KEY=<string literal>`
assignment lines — the shape `_get_release_info_script` emits — followed
by the three `dict.get` lookups. -/
def execReleaseInfo (text : List Char) : RelInfo :=
  (splitLines text).foldl applyAssign ⟨none, none, none⟩

/-- `pat` is a (character-wise) left prefix of `s`. -/
def hasPrefixStr : List Char → List Char → Bool
  | [], _ => true
  | _ :: _, [] => false
  | p :: ps, c :: cs => p == c && hasPrefixStr ps cs

/-- `pat` occurs as a contiguous substring of `s` (Python `in`). -/
def containsStr (s pat : List Char) : Bool :=
  match s with
  | [] => pat.isEmpty
  | _ :: rest => hasPrefixStr pat s || containsStr rest pat

/-- `pat` is a suffix of `s`. -/
def hasSuffixStr (s pat : List Char) : Bool :=
  hasPrefixStr pat.reverse s.reverse

/-- Characters whose Python repr is themselves: printable ASCII that is
neither a backslash nor a single quote.  On such strings `pyRepr` is just
the string wrapped in single quotes. -/
def reprPlain (s : List Char) : Bool :=
  s.all (fun c =>
    32 ≤ c.toNat && c.toNat < 127 && !(c == squoteChar) && !(c == bslashChar))

/-- A byte string: every character fits in one byte, as all strings of
the Python 2 source do. -/
def byteStr (s : List Char) : Bool :=
  s.all (fun c => decide (c.toNat < 256))

/-! ### Generic string lemmas -/

theorem hasPrefixStr_append (p t : List Char) : hasPrefixStr p (p ++ t) = true := by
  induction p with
  | nil => rfl
  | cons c cs ih => simp [hasPrefixStr, ih]

theorem hasPrefixStr_refl (p : List Char) : hasPrefixStr p p = true := by
  have h := hasPrefixStr_append p []
  simpa using h

theorem containsStr_cons (c : Char) (s pat : List Char)
    (h : containsStr s pat = true) : containsStr (c :: s) pat = true := by
  simp [containsStr, h]

theorem containsStr_append_left (a s pat : List Char)
    (h : containsStr s pat = true) : containsStr (a ++ s) pat = true := by
  induction a with
  | nil => simpa using h
  | cons c cs ih => exact containsStr_cons c (cs ++ s) pat ih

theorem containsStr_self_append (pat rest : List Char) :
    containsStr (pat ++ rest) pat = true := by
  cases pat with
  | nil =>
    cases rest with
    | nil => rfl
    | cons c cs => simp [containsStr, hasPrefixStr]
  | cons p ps =>
    simp only [List.cons_append, containsStr]
    have h : hasPrefixStr (p :: ps) (p :: (ps ++ rest)) = true := by
      simpa using hasPrefixStr_append (p :: ps) rest
    simp [h]

theorem hasSuffixStr_append (x pat : List Char) :
    hasSuffixStr (x ++ pat) pat = true := by
  unfold hasSuffixStr
  rw [List.reverse_append]
  exact hasPrefixStr_append pat.reverse x.reverse

theorem stripPrefixCI_self_append (p t : List Char) :
    stripPrefixCI p (p ++ t) = some t := by
  induction p with
  | nil => rfl
  | cons c cs ih => simp [stripPrefixCI, eqCI, ih]

theorem takeWhile_of_all (p : Char → Bool) (l : List Char)
    (h : l.all p = true) : l.takeWhile p = l := by
  induction l with
  | nil => rfl
  | cons c cs ih =>
    simp only [List.all_cons, Bool.and_eq_true] at h
    simp [List.takeWhile_cons, h.1, ih h.2]

theorem dropWhile_of_all (p : Char → Bool) (l : List Char)
    (h : l.all p = true) : l.dropWhile p = [] := by
  induction l with
  | nil => rfl
  | cons c cs ih =>
    simp only [List.all_cons, Bool.and_eq_true] at h
    simp [List.dropWhile_cons, h.1, ih h.2]

theorem takeWhile_append_stop (p : Char → Bool) (xs ys : List Char) (y : Char)
    (hxs : xs.all p = true) (hy : p y = false) :
    (xs ++ y :: ys).takeWhile p = xs := by
  induction xs with
  | nil => simp [List.takeWhile_cons, hy]
  | cons c cs ih =>
    simp only [List.all_cons, Bool.and_eq_true] at hxs
    simp [List.takeWhile_cons, hxs.1, ih hxs.2]

theorem dropWhile_append_stop (p : Char → Bool) (xs ys : List Char) (y : Char)
    (hxs : xs.all p = true) (hy : p y = false) :
    (xs ++ y :: ys).dropWhile p = y :: ys := by
  induction xs with
  | nil => simp [List.dropWhile_cons, hy]
  | cons c cs ih =>
    simp only [List.all_cons, Bool.and_eq_true] at hxs
    simp [List.dropWhile_cons, hxs.1, ih hxs.2]

theorem dropWhile_of_all_false (p : Char → Bool) (l : List Char)
    (h : l.all (fun c => !(p c)) = true) : l.dropWhile p = l := by
  cases l with
  | nil => rfl
  | cons c cs =>
    simp only [List.all_cons, Bool.and_eq_true, Bool.not_eq_true'] at h
    simp [List.dropWhile_cons, h.1]

theorem pyStrip_of_no_space (s : List Char)
    (h : s.all (fun c => !(isPySpace c)) = true) : pyStrip s = s := by
  unfold pyStrip
  rw [dropWhile_of_all_false isPySpace s h]
  rw [dropWhile_of_all_false isPySpace s.reverse (by simpa using h)]
  exact s.reverse_reverse

/-! ### Character-class and repr lemmas -/

theorem isHexDigit_not_space (c : Char) (h : isHexDigit c = true) :
    isPySpace c = false := by
  unfold isHexDigit at h
  unfold isPySpace
  simp only [Bool.or_eq_true, Bool.and_eq_true, decide_eq_true_eq] at h
  simp only [Bool.or_eq_false_iff, beq_eq_false_iff_ne]
  omega

theorem contains_false_of_all_ne (s : List Char) (a : Char)
    (h : s.all (fun c => !(c == a)) = true) : s.contains a = false := by
  induction s with
  | nil => rfl
  | cons c cs ih =>
    simp only [List.all_cons, Bool.and_eq_true, Bool.not_eq_true',
      beq_eq_false_iff_ne] at h
    have hc : (a == c) = false := by
      exact beq_eq_false_iff_ne.mpr (fun hac => h.1 hac.symm)
    simp only [List.contains_cons, hc, Bool.false_or]
    exact ih (by simpa [beq_eq_false_iff_ne] using h.2)

theorem reprPlain_no_squote (s : List Char) (h : reprPlain s = true) :
    s.contains squoteChar = false := by
  apply contains_false_of_all_ne
  unfold reprPlain at h
  simp only [List.all_eq_true] at h ⊢
  intro c hc
  have hc2 := h c hc
  simp only [Bool.and_eq_true] at hc2
  simpa using hc2.1.2

theorem chooseQuote_of_plain (s : List Char) (h : reprPlain s = true) :
    chooseQuote s = squoteChar := by
  unfold chooseQuote
  rw [reprPlain_no_squote s h]
  simp

theorem escapeChar_of_plain (c : Char)
    (h : (32 ≤ c.toNat && c.toNat < 127 && !(c == squoteChar) && !(c == bslashChar)) = true) :
    escapeChar squoteChar c = [c] := by
  simp only [Bool.and_eq_true, Bool.not_eq_true', decide_eq_true_eq] at h
  obtain ⟨⟨⟨h1, h2⟩, h3⟩, h4⟩ := h
  unfold escapeChar
  have e1 : (c == squoteChar || c == bslashChar) = false := by simp [h3, h4]
  have e2 : (c == Char.ofNat 9) = false := by
    refine beq_eq_false_iff_ne.mpr (fun hh => ?_)
    subst hh; simp at h1
  have e3 : (c == nlChar) = false := by
    refine beq_eq_false_iff_ne.mpr (fun hh => ?_)
    rw [hh] at h1; simp [nlChar] at h1
  have e4 : (c == Char.ofNat 13) = false := by
    refine beq_eq_false_iff_ne.mpr (fun hh => ?_)
    subst hh; simp at h1
  have e5 : (c.toNat < 32 || 127 ≤ c.toNat) = false := by
    simp only [Bool.or_eq_false_iff, decide_eq_false_iff_not]
    omega
  simp [e1, e2, e3, e4, e5]

theorem escapeStr_of_plain (s : List Char) (h : reprPlain s = true) :
    escapeStr squoteChar s = s := by
  induction s with
  | nil => rfl
  | cons c cs ih =>
    unfold reprPlain at h
    simp only [List.all_cons, Bool.and_eq_true] at h
    have hc := escapeChar_of_plain c (by
      simp only [Bool.and_eq_true]
      exact h.1)
    have hcs := ih (by unfold reprPlain; exact h.2)
    simp only [escapeStr, List.map_cons, List.flatten_cons]
    rw [hc]
    simp only [escapeStr] at hcs
    rw [hcs]
    simp

theorem pyRepr_of_plain (s : List Char) (h : reprPlain s = true) :
    pyRepr s = squoteChar :: (s ++ [squoteChar]) := by
  simp only [pyRepr]
  rw [chooseQuote_of_plain s h, escapeStr_of_plain s h]

/-! ### Unfolding helpers for `_get_versions` -/

theorem get_versions_git_eq (mv gp raw : List Char) :
    _get_versions mv ⟨none, true, some raw⟩ gp =
      (match parseDesc mv (pyStrip raw) with
      | none => Except.error (MetaErr.runtimeError (parseErrorMsg mv (pyStrip raw)))
      | some m =>
        if optTruthy m.nrevs && natPos (digitsToNat (m.nrevs.getD [])) then
          if !(mv.contains '-') then
            Except.error (MetaErr.valueError (finalReleaseMsg mv))
          else
            Except.ok ⟨mv, mv ++ '.' :: m.nrevs.getD [],
              applyBuild gp m (mv ++ '.' :: m.nrevs.getD []) (mv ++ '.' :: m.nrevs.getD [])⟩
        else
          Except.ok ⟨mv, mv, applyBuild gp m mv mv⟩) := rfl

/-! ### The claims -/

/-- C7: if the `git describe` invocation itself fails, `_get_versions`
does not raise: it returns the fallback triple
`(base, base, base + "+unknown")` computed from the embedded constant
only, and the warning is logged. -/
theorem C7_describe_failure_falls_back (mv gp : List Char) :
    _get_versions mv ⟨none, true, none⟩ gp =
      Except.ok ⟨mv, mv, mv ++ "+unknown".data⟩ ∧
    describeWarned ⟨none, true, none⟩ = true :=
  ⟨rfl, rfl⟩

/-- C8: with neither a `release_info` file nor a `.git` directory
present, `_get_versions` returns exactly
`(MYPAINT_VERSION, MYPAINT_VERSION, MYPAINT_VERSION + "+unknown")`,
whatever the (unconsulted) describe output would have been. -/
theorem C8_no_file_no_git_fallback (gp : List Char) (gd : Option (List Char)) :
    _get_versions MYPAINT_VERSION ⟨none, false, gd⟩ gp =
      Except.ok ⟨MYPAINT_VERSION, MYPAINT_VERSION, MYPAINT_VERSION ++ "+unknown".data⟩ :=
  rfl

/-- C1: for a base version containing a hyphen and a describe output
matching pattern 1 with a positive commits-since-tag count, the formal
version is the base version, a dot, and the captured count. -/
theorem C1_prerelease_appends_commit_count
    (mv gp raw ds : List Char) (pr : DescMatch)
    (hm : match1 mv (pyStrip raw) = some pr)
    (hn : pr.nrevs = some ds)
    (hpos : 0 < digitsToNat ds)
    (hhy : mv.contains '-' = true) :
    ∃ v : Versions,
      _get_versions mv ⟨none, true, some raw⟩ gp = Except.ok v ∧
      v.base = mv ∧ v.formal = mv ++ '.' :: ds := by
  have hds : ds.isEmpty = false := by
    cases ds with
    | nil => simp [digitsToNat] at hpos
    | cons a as => rfl
  refine ⟨⟨mv, mv ++ '.' :: ds, applyBuild gp pr (mv ++ '.' :: ds) (mv ++ '.' :: ds)⟩,
    ?_, rfl, rfl⟩
  rw [get_versions_git_eq]
  simp only [parseDesc, hm]
  have hcond : (optTruthy pr.nrevs && natPos (digitsToNat (pr.nrevs.getD []))) = true := by
    rw [hn]
    simp [optTruthy, natPos, hds, hpos]
  rw [hcond, hhy]
  simp [hn]

/-- C2: for a base version without a hyphen (a final release) and a
describe output matching pattern 1 with a positive commits-since-tag
count, `_get_versions` raises the fatal `ValueError` instead of
returning a triple. -/
theorem C2_final_release_with_commits_fatal
    (mv gp raw ds : List Char) (pr : DescMatch)
    (hm : match1 mv (pyStrip raw) = some pr)
    (hn : pr.nrevs = some ds)
    (hpos : 0 < digitsToNat ds)
    (hhy : mv.contains '-' = false) :
    _get_versions mv ⟨none, true, some raw⟩ gp =
      Except.error (MetaErr.valueError (finalReleaseMsg mv)) := by
  have hds : ds.isEmpty = false := by
    cases ds with
    | nil => simp [digitsToNat] at hpos
    | cons a as => rfl
  rw [get_versions_git_eq]
  simp only [parseDesc, hm]
  have hcond : (optTruthy pr.nrevs && natPos (digitsToNat (pr.nrevs.getD []))) = true := by
    rw [hn]
    simp [optTruthy, natPos, hds, hpos]
  rw [hcond, hhy]
  simp

/-- Witness for C1 at a concrete prerelease version and describe output. -/
theorem C1_witness :
    ∃ v : Versions,
      _get_versions "1.2.0-beta.0".data
          ⟨none, true, some "v1.2.0-beta.0-4-g1a2b3c4".data⟩ "gitexport".data =
        Except.ok v ∧
      v.base = "1.2.0-beta.0".data ∧
      v.formal = "1.2.0-beta.0".data ++ '.' :: ['4'] :=
  C1_prerelease_appends_commit_count
    "1.2.0-beta.0".data "gitexport".data "v1.2.0-beta.0-4-g1a2b3c4".data
    ['4'] ⟨some ['4'], some "1a2b3c4".data, none⟩
    (by rfl) (by rfl) (by decide) (by rfl)

/-- Witness for C2 at a concrete final-release version and describe
output three commits past the tag. -/
theorem C2_witness :
    _get_versions "1.2.0".data
        ⟨none, true, some "v1.2.0-3-gabc1234".data⟩ "gitexport".data =
      Except.error (MetaErr.valueError (finalReleaseMsg "1.2.0".data)) :=
  C2_final_release_with_commits_fatal
    "1.2.0".data "gitexport".data "v1.2.0-3-gabc1234".data
    ['3'] ⟨some ['3'], some "abc1234".data, none⟩
    (by rfl) (by rfl) (by decide) (by rfl)

/-- C9: a describe output `<hexid>-dirty` (7+ hex digits, dirty suffix)
that does not match pattern 1 is rejected: pattern 2 requires the entire
output to be hexadecimal, so the bare-identifier fallback never captures
a dirty flag and `_get_versions` raises the fatal parse error. -/
theorem C9_bare_id_dirty_is_fatal
    (mv gp h : List Char)
    (hlen : 7 ≤ h.length)
    (hhex : h.all isHexDigit = true)
    (hm : match1 mv (h ++ "-dirty".data) = none) :
    _get_versions mv ⟨none, true, some (h ++ "-dirty".data)⟩ gp =
      Except.error (MetaErr.runtimeError (parseErrorMsg mv (h ++ "-dirty".data))) := by
  have hstrip : pyStrip (h ++ "-dirty".data) = h ++ "-dirty".data := by
    apply pyStrip_of_no_space
    rw [List.all_append]
    have h1 : h.all (fun c => !(isPySpace c)) = true := by
      simp only [List.all_eq_true] at hhex ⊢
      intro c hc
      simp [isHexDigit_not_space c (hhex c hc)]
    have h2 : ("-dirty".data).all (fun c => !(isPySpace c)) = true := by decide
    simp [h1, h2]
  have hm2 : match2 (h ++ "-dirty".data) = none := by
    unfold match2
    have : (h ++ "-dirty".data).all isHexDigit = false := by
      rw [List.all_append]
      have : ("-dirty".data).all isHexDigit = false := by decide
      simp [this]
    simp [this]
  rw [get_versions_git_eq, hstrip]
  simp only [parseDesc, hm, hm2]

/-- Witness for C9: an untagged repository with local changes. -/
theorem C9_witness :
    _get_versions "1.2.0-beta.0".data
        ⟨none, true, some ("abc1234".data ++ "-dirty".data)⟩ "gitexport".data =
      Except.error
        (MetaErr.runtimeError
          (parseErrorMsg "1.2.0-beta.0".data ("abc1234".data ++ "-dirty".data))) :=
  C9_bare_id_dirty_is_fatal "1.2.0-beta.0".data "gitexport".data "abc1234".data
    (by decide) (by decide) (by rfl)

/-- C10: a describe output `v<base>-0-g<sha>` (exactly at the tag, long
format, clean tree) yields formal = base (no ".0" suffix) and
ceremonial = base + "+" + gitpfx + "." + sha. -/
theorem C10_exact_tag_long_format
    (mv gp sha : List Char)
    (hne : sha.isEmpty = false)
    (hhex : sha.all isHexDigit = true)
    (hmv : mv.all (fun c => !(isPySpace c)) = true) :
    _get_versions mv
        ⟨none, true, some ('v' :: (mv ++ ('-' :: '0' :: '-' :: 'g' :: sha)))⟩ gp =
      Except.ok ⟨mv, mv, mv ++ '+' :: (gp ++ '.' :: sha)⟩ := by
  have hstrip :
      pyStrip ('v' :: (mv ++ ('-' :: '0' :: '-' :: 'g' :: sha))) =
        'v' :: (mv ++ ('-' :: '0' :: '-' :: 'g' :: sha)) := by
    apply pyStrip_of_no_space
    simp only [List.all_eq_true] at hmv hhex ⊢
    intro c hc
    simp only [List.mem_cons, List.mem_append] at hc
    rcases hc with h | h | h | h | h | h | h
    · subst h; decide
    · exact hmv c h
    · subst h; decide
    · subst h; decide
    · subst h; decide
    · subst h; decide
    · simp [isHexDigit_not_space c (hhex c h)]
  have hsha_take : sha.takeWhile isHexDigit = sha := takeWhile_of_all _ _ hhex
  have hsha_drop : sha.dropWhile isHexDigit = [] := dropWhile_of_all _ _ hhex
  have hshd : matchShaDirty ('-' :: 'g' :: sha) = some (some sha, none) := by
    simp only [matchShaDirty]
    have hg : (('-' : Char) == '-' && eqCI 'g' 'g') = true := by decide
    rw [hg, if_pos rfl, hsha_take, hne, if_neg (by simp), hsha_drop]
    simp [matchDirty]
  have htake : ('0' :: '-' :: 'g' :: sha).takeWhile isAsciiDigit = ['0'] := by
    rw [List.takeWhile_cons, if_pos (by decide), List.takeWhile_cons,
      if_neg (by decide)]
  have hdrop : ('0' :: '-' :: 'g' :: sha).dropWhile isAsciiDigit =
      '-' :: 'g' :: sha := by
    rw [List.dropWhile_cons, if_pos (by decide), List.dropWhile_cons,
      if_neg (by decide)]
  have htail : matchTail1 ('-' :: '0' :: '-' :: 'g' :: sha) =
      some ⟨some ['0'], some sha, none⟩ := by
    simp only [matchTail1]
    rw [show (('-' : Char) == '-') = true from by decide, if_pos rfl, htake, hdrop]
    rw [if_neg (by simp), hshd]
    rfl
  have hm1 : match1 mv ('v' :: (mv ++ ('-' :: '0' :: '-' :: 'g' :: sha))) =
      some ⟨some ['0'], some sha, none⟩ := by
    unfold match1
    have : stripPrefixCI ('v' :: mv) ('v' :: (mv ++ ('-' :: '0' :: '-' :: 'g' :: sha))) =
        some ('-' :: '0' :: '-' :: 'g' :: sha) :=
      stripPrefixCI_self_append ('v' :: mv) _
    rw [this]
    exact htail
  rw [get_versions_git_eq, hstrip]
  simp only [parseDesc, hm1]
  have hcond : (optTruthy (some ['0']) &&
      natPos (digitsToNat ((some ['0']).getD []))) = false := by decide
  rw [hcond]
  simp only [Bool.false_eq_true, if_false]
  have happ : applyBuild gp ⟨some ['0'], some sha, none⟩ mv mv =
      mv ++ '+' :: (gp ++ '.' :: sha) := by
    unfold applyBuild buildIds
    have ht : optTruthy (some sha) = true := by simp [optTruthy, hne]
    rw [ht]
    simp [joinDots]
  rw [happ]

/-- Witness for C10 at the concrete prerelease tag and a 7-digit id. -/
theorem C10_witness :
    _get_versions "1.2.0-beta.0".data
        ⟨none, true,
          some ('v' :: ("1.2.0-beta.0".data ++
            ('-' :: '0' :: '-' :: 'g' :: "1a2b3c4".data)))⟩
        "gitexport".data =
      Except.ok ⟨"1.2.0-beta.0".data, "1.2.0-beta.0".data,
        "1.2.0-beta.0".data ++ '+' :: ("gitexport".data ++ '.' :: "1a2b3c4".data)⟩ :=
  C10_exact_tag_long_format "1.2.0-beta.0".data "gitexport".data "1a2b3c4".data
    (by decide) (by decide) (by decide)

/-! ### Build-metadata lemmas -/

theorem optTruthy_some_exists (o : Option (List Char))
    (h : optTruthy o = true) : ∃ s, o = some s := by
  cases o with
  | none => simp [optTruthy] at h
  | some s => exact ⟨s, rfl⟩

theorem hasPrefixStr_applyBuild (gp f : List Char) (m : DescMatch) :
    hasPrefixStr f (applyBuild gp m f f) = true := by
  simp only [applyBuild]
  by_cases h : (buildIds gp m).isEmpty = true
  · rw [if_pos h]; exact hasPrefixStr_refl f
  · rw [if_neg h]; exact hasPrefixStr_append f _

theorem applyBuild_dirty_suffix (gp f c : List Char) (m : DescMatch)
    (hsha : optTruthy m.objsha = true) (hd : optTruthy m.dirty = true) :
    hasSuffixStr (applyBuild gp m f c) ".dirty".data = true := by
  simp only [applyBuild, buildIds, hsha, hd, if_true, List.cons_append,
    List.nil_append, List.isEmpty_cons, Bool.false_eq_true, if_false]
  have hj : joinDots [gp ++ '.' :: m.objsha.getD [], ['d', 'i', 'r', 't', 'y']] =
      (gp ++ '.' :: m.objsha.getD []) ++ '.' :: ['d', 'i', 'r', 't', 'y'] := rfl
  rw [hj]
  have he := hasSuffixStr_append (f ++ '+' :: (gp ++ '.' :: m.objsha.getD []))
    ['.', 'd', 'i', 'r', 't', 'y']
  simpa [List.append_assoc] using he

/-- C4 counterexample: when the dirty flag is captured but no object id
is (describe output `v<base>-dirty`), the ceremonial version ends in
`+dirty`, not `.dirty` — the claim fails as stated. -/
theorem C4_counterexample :
    _get_versions MYPAINT_VERSION
        ⟨none, true, some "v1.2.0-beta.0-dirty".data⟩ "gitexport".data =
      Except.ok ⟨"1.2.0-beta.0".data, "1.2.0-beta.0".data,
        "1.2.0-beta.0+dirty".data⟩ ∧
    hasSuffixStr "1.2.0-beta.0+dirty".data ".dirty".data = false :=
  ⟨rfl, rfl⟩

/-- C4 (amended): when pattern 1 captures the dirty flag together with an
object id, any triple `_get_versions` returns has a ceremonial version
ending in ".dirty" (with no object id the suffix is "+dirty" instead). -/
theorem C4_dirty_with_objsha_suffix
    (mv gp raw : List Char) (pr : DescMatch)
    (hm : match1 mv (pyStrip raw) = some pr)
    (hd : optTruthy pr.dirty = true)
    (hsha : optTruthy pr.objsha = true)
    (v : Versions)
    (hok : _get_versions mv ⟨none, true, some raw⟩ gp = Except.ok v) :
    hasSuffixStr v.ceremonial ".dirty".data = true := by
  rw [get_versions_git_eq] at hok
  simp only [parseDesc, hm] at hok
  by_cases hc : (optTruthy pr.nrevs && natPos (digitsToNat (pr.nrevs.getD []))) = true
  · rw [if_pos hc] at hok
    by_cases hh : (!(mv.contains '-')) = true
    · rw [if_pos hh] at hok
      exact absurd hok (by simp)
    · rw [if_neg hh] at hok
      injection hok with h
      subst h
      exact applyBuild_dirty_suffix gp _ _ pr hsha hd
  · rw [if_neg hc] at hok
    injection hok with h
    subst h
    exact applyBuild_dirty_suffix gp _ _ pr hsha hd

/-- Witness for the amended C4 at a dirty build four commits past the
tag. -/
theorem C4_witness :
    hasSuffixStr
      (Versions.ceremonial
        ⟨"1.2.0-beta.0".data, "1.2.0-beta.0.4".data,
          "1.2.0-beta.0.4+gitexport.1a2b3c4.dirty".data⟩)
      ".dirty".data = true :=
  C4_dirty_with_objsha_suffix
    "1.2.0-beta.0".data "gitexport".data "v1.2.0-beta.0-4-g1a2b3c4-dirty".data
    ⟨some ['4'], some "1a2b3c4".data, some "dirty".data⟩
    (by rfl) (by rfl) (by rfl)
    ⟨"1.2.0-beta.0".data, "1.2.0-beta.0.4".data,
      "1.2.0-beta.0.4+gitexport.1a2b3c4.dirty".data⟩
    (by rfl)

/-- C5 counterexample: on the `release_info` override path the three
strings come from the file independently, so the prefix chain can fail —
the claim is false as stated over all paths. -/
theorem C5_counterexample :
    _get_versions MYPAINT_VERSION
        ⟨some ⟨some "zzz".data, some "a".data, some "b".data⟩, false, none⟩
        "gitexport".data =
      Except.ok ⟨"zzz".data, "a".data, "b".data⟩ ∧
    hasPrefixStr "zzz".data "a".data = false :=
  ⟨rfl, rfl⟩

/-- C5 (amended): on every path that does not read a `release_info`
file, any returned triple satisfies the prefix chain: base is a prefix
of formal and formal is a prefix of ceremonial. -/
theorem C5_prefix_chain_without_release_info
    (mv gp : List Char) (env : Env) (hri : env.releaseInfo = none)
    (v : Versions) (hok : _get_versions mv env gp = Except.ok v) :
    hasPrefixStr v.base v.formal = true ∧
    hasPrefixStr v.formal v.ceremonial = true := by
  obtain ⟨ri, git, gd⟩ := env
  simp only at hri
  subst hri
  cases git with
  | false =>
    have h2 : Except.ok (⟨mv, mv, mv ++ "+unknown".data⟩ : Versions) = Except.ok v := hok
    injection h2 with h
    subst h
    exact ⟨hasPrefixStr_refl mv, hasPrefixStr_append mv _⟩
  | true =>
    cases gd with
    | none =>
      have h2 : Except.ok (⟨mv, mv, mv ++ "+unknown".data⟩ : Versions) = Except.ok v := hok
      injection h2 with h
      subst h
      exact ⟨hasPrefixStr_refl mv, hasPrefixStr_append mv _⟩
    | some raw =>
      rw [get_versions_git_eq] at hok
      cases hp : parseDesc mv (pyStrip raw) with
      | none =>
        simp only [hp] at hok
        exact absurd hok (by simp)
      | some m =>
        simp only [hp] at hok
        by_cases hc : (optTruthy m.nrevs && natPos (digitsToNat (m.nrevs.getD []))) = true
        · rw [if_pos hc] at hok
          by_cases hh : (!(mv.contains '-')) = true
          · rw [if_pos hh] at hok
            exact absurd hok (by simp)
          · rw [if_neg hh] at hok
            injection hok with h
            subst h
            exact ⟨hasPrefixStr_append mv _, hasPrefixStr_applyBuild gp _ m⟩
        · rw [if_neg hc] at hok
          injection hok with h
          subst h
          exact ⟨hasPrefixStr_refl mv, hasPrefixStr_applyBuild gp mv m⟩

/-- Witness for the amended C5 on the constant-only fallback path. -/
theorem C5_witness :
    hasPrefixStr MYPAINT_VERSION MYPAINT_VERSION = true ∧
    hasPrefixStr MYPAINT_VERSION (MYPAINT_VERSION ++ "+unknown".data) = true :=
  C5_prefix_chain_without_release_info MYPAINT_VERSION "gitexport".data
    ⟨none, false, none⟩ rfl
    ⟨MYPAINT_VERSION, MYPAINT_VERSION, MYPAINT_VERSION ++ "+unknown".data⟩ rfl

/-! ### Parse-error message contents -/

theorem containsStr_of_eq (s x y pat : List Char) (h : s = x ++ (pat ++ y)) :
    containsStr s pat = true := by
  rw [h]
  exact containsStr_append_left x _ pat (containsStr_self_append pat y)

theorem parseErrorMsg_contains_cmd (mv d : List Char) :
    containsStr (parseErrorMsg mv d) gitDescribeCmd = true := by
  apply containsStr_of_eq _ ("Failed to parse output of ".data ++ [dquoteChar])
    ([dquoteChar] ++ ". The base MYPAINT_VERSION (".data ++ mv ++
      ") from the code must be present in the output of this command (".data ++
      pyRepr d ++ "). The local repo may be missing a tag named ".data ++
      [dquoteChar, 'v'] ++ mv ++ [dquoteChar] ++
      ", or we need to add another case for parsing git output.".data)
  simp [parseErrorMsg, List.append_assoc]

theorem parseErrorMsg_contains_tag (mv d : List Char) :
    containsStr (parseErrorMsg mv d) ('v' :: mv) = true := by
  apply containsStr_of_eq _
    ("Failed to parse output of ".data ++ [dquoteChar] ++ gitDescribeCmd ++
      [dquoteChar] ++ ". The base MYPAINT_VERSION (".data ++ mv ++
      ") from the code must be present in the output of this command (".data ++
      pyRepr d ++ "). The local repo may be missing a tag named ".data ++
      [dquoteChar])
    ([dquoteChar] ++ ", or we need to add another case for parsing git output.".data)
  simp [parseErrorMsg, List.append_assoc]

theorem parseErrorMsg_contains_repr (mv d : List Char) :
    containsStr (parseErrorMsg mv d) (pyRepr d) = true := by
  apply containsStr_of_eq _
    ("Failed to parse output of ".data ++ [dquoteChar] ++ gitDescribeCmd ++
      [dquoteChar] ++ ". The base MYPAINT_VERSION (".data ++ mv ++
      ") from the code must be present in the output of this command (".data)
    ("). The local repo may be missing a tag named ".data ++
      [dquoteChar, 'v'] ++ mv ++ [dquoteChar] ++
      ", or we need to add another case for parsing git output.".data)
  simp [parseErrorMsg, List.append_assoc]

theorem parseErrorMsg_contains_plain (mv d : List Char)
    (hpl : reprPlain d = true) :
    containsStr (parseErrorMsg mv d) d = true := by
  apply containsStr_of_eq _
    ("Failed to parse output of ".data ++ [dquoteChar] ++ gitDescribeCmd ++
      [dquoteChar] ++ ". The base MYPAINT_VERSION (".data ++ mv ++
      ") from the code must be present in the output of this command (".data ++
      [squoteChar])
    ([squoteChar] ++ "). The local repo may be missing a tag named ".data ++
      [dquoteChar, 'v'] ++ mv ++ [dquoteChar] ++
      ", or we need to add another case for parsing git output.".data)
  rw [show parseErrorMsg mv d =
      "Failed to parse output of ".data ++ [dquoteChar] ++ gitDescribeCmd ++
      [dquoteChar] ++ ". The base MYPAINT_VERSION (".data ++ mv ++
      ") from the code must be present in the output of this command (".data ++
      (squoteChar :: (d ++ [squoteChar])) ++
      "). The local repo may be missing a tag named ".data ++
      [dquoteChar, 'v'] ++ mv ++ [dquoteChar] ++
      ", or we need to add another case for parsing git output.".data from by
    rw [parseErrorMsg, pyRepr_of_plain d hpl]]
  simp [List.append_assoc]

/-- C3 counterexample: for a describe output containing a backslash the
raised message contains only the Python repr of the output, in which the
backslash is doubled — the stated claim ("contains the actual describe
output") fails at this input. -/
theorem C3_counterexample :
    _get_versions MYPAINT_VERSION
        ⟨none, true, some ['a', bslashChar, 'b']⟩ "gitexport".data =
      Except.error
        (MetaErr.runtimeError
          (parseErrorMsg MYPAINT_VERSION ['a', bslashChar, 'b'])) ∧
    containsStr (parseErrorMsg MYPAINT_VERSION ['a', bslashChar, 'b'])
      ['a', bslashChar, 'b'] = false :=
  ⟨rfl, by decide⟩

/-- C3 (amended): whenever neither pattern matches the stripped describe
output, `_get_versions` raises the fatal `RuntimeError` (no silent
fallback), and the message contains the missing tag name `v<base>`, the
invoked command line, and the Python repr of the stripped output — which
contains the output verbatim whenever it is printable ASCII free of
backslashes and single quotes. -/
theorem C3_unparsed_describe_fatal
    (mv gp raw : List Char)
    (hparse : parseDesc mv (pyStrip raw) = none) :
    _get_versions mv ⟨none, true, some raw⟩ gp =
      Except.error (MetaErr.runtimeError (parseErrorMsg mv (pyStrip raw))) ∧
    containsStr (parseErrorMsg mv (pyStrip raw)) ('v' :: mv) = true ∧
    containsStr (parseErrorMsg mv (pyStrip raw)) gitDescribeCmd = true ∧
    containsStr (parseErrorMsg mv (pyStrip raw)) (pyRepr (pyStrip raw)) = true ∧
    (reprPlain (pyStrip raw) = true →
      containsStr (parseErrorMsg mv (pyStrip raw)) (pyStrip raw) = true) := by
  refine ⟨?_, parseErrorMsg_contains_tag mv (pyStrip raw),
    parseErrorMsg_contains_cmd mv (pyStrip raw),
    parseErrorMsg_contains_repr mv (pyStrip raw),
    fun hpl => parseErrorMsg_contains_plain mv (pyStrip raw) hpl⟩
  rw [get_versions_git_eq]
  simp only [hparse]

/-- Witness for the amended C3 at the unrecognizable output
"garbage-xyz". -/
theorem C3_witness :
    _get_versions MYPAINT_VERSION
        ⟨none, true, some "garbage-xyz".data⟩ "gitexport".data =
      Except.error
        (MetaErr.runtimeError
          (parseErrorMsg MYPAINT_VERSION (pyStrip "garbage-xyz".data))) ∧
    containsStr (parseErrorMsg MYPAINT_VERSION (pyStrip "garbage-xyz".data))
      ('v' :: MYPAINT_VERSION) = true ∧
    containsStr (parseErrorMsg MYPAINT_VERSION (pyStrip "garbage-xyz".data))
      gitDescribeCmd = true ∧
    containsStr (parseErrorMsg MYPAINT_VERSION (pyStrip "garbage-xyz".data))
      (pyRepr (pyStrip "garbage-xyz".data)) = true ∧
    (reprPlain (pyStrip "garbage-xyz".data) = true →
      containsStr (parseErrorMsg MYPAINT_VERSION (pyStrip "garbage-xyz".data))
        (pyStrip "garbage-xyz".data) = true) :=
  C3_unparsed_describe_fatal MYPAINT_VERSION "gitexport".data
    "garbage-xyz".data (by rfl)

/-! ### Round-trip of the release-info script -/

theorem hexVal_hexDigitChar (k : Nat) (hk : k < 16) :
    hexVal (hexDigitChar k) = some k := by
  interval_cases k <;> decide

theorem parsePyLitBody_escapeStr (q : Char)
    (hq1 : (bslashChar == q) = false)
    (hq2 : (q == squoteChar || q == dquoteChar) = true) :
    ∀ s : List Char, byteStr s = true →
    parsePyLitBody q (escapeStr q s ++ [q]) = some s := by
  intro s
  induction s with
  | nil =>
    intro _
    simp [escapeStr, parsePyLitBody]
  | cons c cs ih =>
    intro hb
    have hparts : c.toNat < 256 ∧ cs.all (fun x => decide (x.toNat < 256)) = true := by
      have hb2 := hb
      unfold byteStr at hb2
      simp only [List.all_cons, Bool.and_eq_true, decide_eq_true_eq] at hb2
      exact hb2
    have hc : c.toNat < 256 := hparts.1
    have hcs : byteStr cs = true := hparts.2
    have ihc := ih hcs
    have heq : escapeStr q (c :: cs) ++ [q] = escapeChar q c ++ (escapeStr q cs ++ [q]) := by
      simp [escapeStr, List.append_assoc]
    rw [heq]
    by_cases h1 : (c == q || c == bslashChar) = true
    · have hch : escapeChar q c = [bslashChar, c] := by
        unfold escapeChar
        rw [if_pos h1]
      have h1' : (c == bslashChar || c == squoteChar || c == dquoteChar) = true := by
        have h1d : (c == q) = true ∨ (c == bslashChar) = true := by
          cases hcq : (c == q) with
          | true => exact Or.inl rfl
          | false =>
            cases hcb : (c == bslashChar) with
            | true => exact Or.inr rfl
            | false => rw [hcq, hcb] at h1; exact absurd h1 (by simp)
        rcases h1d with h | h
        · have hcq : c = q := eq_of_beq h
          subst hcq
          have h2d : (c == squoteChar) = true ∨ (c == dquoteChar) = true := by
            cases hcq2 : (c == squoteChar) with
            | true => exact Or.inl rfl
            | false =>
              cases hcb2 : (c == dquoteChar) with
              | true => exact Or.inr rfl
              | false => rw [hcq2, hcb2] at hq2; exact absurd hq2 (by simp)
          rcases h2d with h2 | h2 <;> simp [h2]
        · simp [h]
      rw [hch]
      simp only [List.cons_append, List.nil_append]
      rw [parsePyLitBody.eq_def]
      simp only [hq1, Bool.false_eq_true, if_false, beq_self_eq_true, if_true, h1', ihc]
      rfl
    · have h1q : (c == q) = false := by
        cases hor : (c == q) with
        | false => rfl
        | true => exact absurd (by simp [hor]) h1
      have h1b : (c == bslashChar) = false := by
        cases hor : (c == bslashChar) with
        | false => rfl
        | true => exact absurd (by simp [hor]) h1
      by_cases h2 : (c == Char.ofNat 9) = true
      · have hch : escapeChar q c = [bslashChar, 't'] := by
          unfold escapeChar
          rw [if_neg (by simp [h1q, h1b]), if_pos h2]
        have hc9 : c = Char.ofNat 9 := eq_of_beq h2
        rw [hch]
        simp only [List.cons_append, List.nil_append]
        rw [parsePyLitBody.eq_def]
        simp only [hq1, Bool.false_eq_true, if_false, beq_self_eq_true, if_true, ihc,
          show (('t' == bslashChar || 't' == squoteChar || 't' == dquoteChar)) = false
            from by decide,
          show (('t' : Char) == 't') = true from by decide]
        rw [hc9]
        rfl
      · by_cases h3 : (c == nlChar) = true
        · have hch : escapeChar q c = [bslashChar, 'n'] := by
            unfold escapeChar
            rw [if_neg (by simp [h1q, h1b]), if_neg (by simp [h2]), if_pos h3]
          have hcn : c = nlChar := eq_of_beq h3
          rw [hch]
          simp only [List.cons_append, List.nil_append]
          rw [parsePyLitBody.eq_def]
          simp only [hq1, Bool.false_eq_true, if_false, beq_self_eq_true, if_true, ihc,
            show (('n' == bslashChar || 'n' == squoteChar || 'n' == dquoteChar)) = false
              from by decide,
            show (('n' : Char) == 't') = false from by decide,
            show (('n' : Char) == 'n') = true from by decide]
          rw [hcn]
          rfl
        · by_cases h4 : (c == Char.ofNat 13) = true
          · have hch : escapeChar q c = [bslashChar, 'r'] := by
              unfold escapeChar
              rw [if_neg (by simp [h1q, h1b]), if_neg (by simp [h2]),
                if_neg (by simp [h3]), if_pos h4]
            have hcr : c = Char.ofNat 13 := eq_of_beq h4
            rw [hch]
            simp only [List.cons_append, List.nil_append]
            rw [parsePyLitBody.eq_def]
            simp only [hq1, Bool.false_eq_true, if_false, beq_self_eq_true, if_true, ihc,
              show (('r' == bslashChar || 'r' == squoteChar || 'r' == dquoteChar)) = false
                from by decide,
              show (('r' : Char) == 't') = false from by decide,
              show (('r' : Char) == 'n') = false from by decide,
              show (('r' : Char) == 'r') = true from by decide]
            rw [hcr]
            rfl
          · by_cases h5 : (c.toNat < 32 || 127 ≤ c.toNat) = true
            · have hch : escapeChar q c =
                  [bslashChar, 'x', hexDigitChar (c.toNat / 16), hexDigitChar (c.toNat % 16)] := by
                unfold escapeChar
                rw [if_neg (by simp [h1q, h1b]), if_neg (by simp [h2]),
                  if_neg (by simp [h3]), if_neg (by simp [h4]), if_pos h5]
              rw [hch]
              simp only [List.cons_append, List.nil_append]
              have hdiv : c.toNat / 16 < 16 := by omega
              have hmod : c.toNat % 16 < 16 := Nat.mod_lt _ (by omega)
              rw [parsePyLitBody.eq_def]
              simp only [hq1, Bool.false_eq_true, if_false, beq_self_eq_true, if_true, ihc,
                show (('x' == bslashChar || 'x' == squoteChar || 'x' == dquoteChar)) = false
                  from by decide,
                show (('x' : Char) == 't') = false from by decide,
                show (('x' : Char) == 'n') = false from by decide,
                show (('x' : Char) == 'r') = false from by decide,
                show (('x' : Char) == 'x') = true from by decide,
                hexVal_hexDigitChar _ hdiv, hexVal_hexDigitChar _ hmod]
              have hsum : 16 * (c.toNat / 16) + c.toNat % 16 = c.toNat :=
                Nat.div_add_mod c.toNat 16
              rw [hsum, Char.ofNat_toNat]
              rfl
            · have hch : escapeChar q c = [c] := by
                unfold escapeChar
                rw [if_neg (by simp [h1q, h1b]), if_neg (by simp [h2]),
                  if_neg (by simp [h3]), if_neg (by simp [h4]), if_neg (by simp [h5])]
              rw [hch]
              simp only [List.cons_append, List.nil_append]
              rw [parsePyLitBody.eq_def]
              simp only [h1q, h1b, Bool.false_eq_true, if_false, ihc]
              rfl

theorem chooseQuote_eq (s : List Char) :
    chooseQuote s = squoteChar ∨ chooseQuote s = dquoteChar := by
  unfold chooseQuote
  by_cases h : (s.contains squoteChar && !s.contains dquoteChar) = true
  · rw [if_pos h]; exact Or.inr rfl
  · rw [if_neg h]; exact Or.inl rfl

theorem evalPyLit_pyRepr (s : List Char) (hb : byteStr s = true) :
    evalPyLit (pyRepr s) = some s := by
  rcases chooseQuote_eq s with hq | hq
  · simp only [pyRepr, hq]
    simp only [evalPyLit,
      show ((squoteChar == squoteChar || squoteChar == dquoteChar)) = true from by decide,
      if_true]
    exact parsePyLitBody_escapeStr squoteChar (by decide) (by decide) s hb
  · simp only [pyRepr, hq]
    simp only [evalPyLit,
      show ((dquoteChar == squoteChar || dquoteChar == dquoteChar)) = true from by decide,
      if_true]
    exact parsePyLitBody_escapeStr dquoteChar (by decide) (by decide) s hb

theorem hexDigitChar_ne_nl (k : Nat) (hk : k < 16) :
    (hexDigitChar k == nlChar) = false := by
  interval_cases k <;> decide

theorem escapeChar_no_nl (q c : Char)
    (hqn : (q == nlChar) = false) (hc : c.toNat < 256) :
    (escapeChar q c).all (fun x => !(x == nlChar)) = true := by
  unfold escapeChar
  by_cases h1 : (c == q || c == bslashChar) = true
  · rw [if_pos h1]
    have hcn : (c == nlChar) = false := by
      have h1d : (c == q) = true ∨ (c == bslashChar) = true := by
        cases hcq : (c == q) with
        | true => exact Or.inl rfl
        | false =>
          cases hcb : (c == bslashChar) with
          | true => exact Or.inr rfl
          | false => rw [hcq, hcb] at h1; exact absurd h1 (by simp)
      rcases h1d with h | h
      · rw [eq_of_beq h]; exact hqn
      · rw [eq_of_beq h]; decide
    simp [hcn]
    all_goals decide
  · rw [if_neg h1]
    by_cases h2 : (c == Char.ofNat 9) = true
    · rw [if_pos h2]; decide
    · rw [if_neg h2]
      by_cases h3 : (c == nlChar) = true
      · rw [if_pos h3]; decide
      · rw [if_neg h3]
        by_cases h4 : (c == Char.ofNat 13) = true
        · rw [if_pos h4]; decide
        · rw [if_neg h4]
          by_cases h5 : (c.toNat < 32 || 127 ≤ c.toNat) = true
          · rw [if_pos h5]
            have hd : c.toNat / 16 < 16 := by omega
            have hm : c.toNat % 16 < 16 := Nat.mod_lt _ (by omega)
            simp [hexDigitChar_ne_nl _ hd, hexDigitChar_ne_nl _ hm]
            all_goals decide
          · rw [if_neg h5]
            simp only [List.all_cons, List.all_nil, Bool.and_true]
            cases hcn : (c == nlChar) with
            | false => rfl
            | true => exact absurd hcn (by simpa using h3)

theorem escapeStr_no_nl (q : Char) (s : List Char)
    (hqn : (q == nlChar) = false) (hb : byteStr s = true) :
    (escapeStr q s).all (fun x => !(x == nlChar)) = true := by
  induction s with
  | nil => rfl
  | cons c cs ih =>
    have hparts : c.toNat < 256 ∧ cs.all (fun x => decide (x.toNat < 256)) = true := by
      have hb2 := hb
      unfold byteStr at hb2
      simp only [List.all_cons, Bool.and_eq_true, decide_eq_true_eq] at hb2
      exact hb2
    have heq : escapeStr q (c :: cs) = escapeChar q c ++ escapeStr q cs := by
      simp [escapeStr]
    rw [heq, List.all_append]
    rw [escapeChar_no_nl q c hqn hparts.1, ih hparts.2]
    rfl

theorem pyRepr_no_nl (s : List Char) (hb : byteStr s = true) :
    (pyRepr s).all (fun x => !(x == nlChar)) = true := by
  have hqn : (chooseQuote s == nlChar) = false := by
    rcases chooseQuote_eq s with hq | hq <;> rw [hq] <;> decide
  simp only [pyRepr, List.all_cons, List.all_append, List.all_nil, Bool.and_true]
  rw [hqn, escapeStr_no_nl (chooseQuote s) s hqn hb]
  simp [hqn]

theorem splitLines_append (l rest : List Char)
    (hl : l.all (fun c => !(c == nlChar)) = true) :
    splitLines (l ++ nlChar :: rest) = l :: splitLines rest := by
  induction l with
  | nil =>
    rw [List.nil_append, splitLines.eq_def]
    simp
  | cons c l2 ih =>
    have hparts : (c == nlChar) = false ∧ l2.all (fun c => !(c == nlChar)) = true := by
      simp only [List.all_cons, Bool.and_eq_true, Bool.not_eq_true'] at hl
      exact ⟨hl.1, by
        simp only [List.all_eq_true]
        intro x hx
        have := hl.2
        simp only [List.all_eq_true] at this
        exact this x hx⟩
    have ih2 := ih hparts.2
    rw [List.cons_append, splitLines.eq_def]
    simp only [ih2, hparts.1, Bool.false_eq_true, if_false]

theorem parseAssign_line (key txt v : List Char)
    (hkey : key.all (fun c => !(c == '=')) = true)
    (hv : evalPyLit txt = some v) :
    parseAssign (key ++ '=' :: txt) = some (key, v) := by
  have hveq : ((fun c => !(c == '=')) '=') = false := by decide
  have hdrop := dropWhile_append_stop (fun c => !(c == '=')) key txt '=' hkey hveq
  have htake := takeWhile_append_stop (fun c => !(c == '=')) key txt '=' hkey hveq
  unfold parseAssign
  rw [hdrop]
  simp only [show (('=' : Char) == '=') = true from by decide, if_true, hv, htake]
  rfl

/-- C6: emitting the three-assignment release-info fragment for any
triple of byte strings and reading it back as key-value bindings yields
the identical triple. -/
theorem C6_release_info_round_trip (b f c : List Char)
    (hb : byteStr b = true) (hf : byteStr f = true) (hc : byteStr c = true) :
    execReleaseInfo (releaseInfoScript ⟨b, f, c⟩) =
      ⟨some b, some f, some c⟩ := by
  have hl1 : ("MYPAINT_VERSION_BASE".data ++ '=' :: pyRepr b).all
      (fun x => !(x == nlChar)) = true := by
    have h1 := pyRepr_no_nl b hb
    simp only [List.all_append, List.all_cons, h1]
    simp
    all_goals decide
  have hl2 : ("MYPAINT_VERSION_FORMAL".data ++ '=' :: pyRepr f).all
      (fun x => !(x == nlChar)) = true := by
    have h1 := pyRepr_no_nl f hf
    simp only [List.all_append, List.all_cons, h1]
    simp
    all_goals decide
  have hl3 : ("MYPAINT_VERSION_CEREMONIAL".data ++ '=' :: pyRepr c).all
      (fun x => !(x == nlChar)) = true := by
    have h1 := pyRepr_no_nl c hc
    simp only [List.all_append, List.all_cons, h1]
    simp
    all_goals decide
  have hscript : releaseInfoScript ⟨b, f, c⟩ =
      ("MYPAINT_VERSION_BASE".data ++ '=' :: pyRepr b) ++ nlChar ::
        (("MYPAINT_VERSION_FORMAL".data ++ '=' :: pyRepr f) ++ nlChar ::
          (("MYPAINT_VERSION_CEREMONIAL".data ++ '=' :: pyRepr c) ++ nlChar :: [])) := by
    simp [releaseInfoScript, releaseInfoLine, List.append_assoc]
  have hsplit : splitLines (releaseInfoScript ⟨b, f, c⟩) =
      ["MYPAINT_VERSION_BASE".data ++ '=' :: pyRepr b,
       "MYPAINT_VERSION_FORMAL".data ++ '=' :: pyRepr f,
       "MYPAINT_VERSION_CEREMONIAL".data ++ '=' :: pyRepr c, []] := by
    rw [hscript, splitLines_append _ _ hl1, splitLines_append _ _ hl2,
      splitLines_append _ _ hl3]
    rfl
  have ha1 : applyAssign ⟨none, none, none⟩
      ("MYPAINT_VERSION_BASE".data ++ '=' :: pyRepr b) = ⟨some b, none, none⟩ := by
    unfold applyAssign
    rw [parseAssign_line _ _ b (by decide) (evalPyLit_pyRepr b hb)]
    simp
  have ha2 : applyAssign ⟨some b, none, none⟩
      ("MYPAINT_VERSION_FORMAL".data ++ '=' :: pyRepr f) = ⟨some b, some f, none⟩ := by
    unfold applyAssign
    rw [parseAssign_line _ _ f (by decide) (evalPyLit_pyRepr f hf)]
    simp only [if_neg (by decide : ¬("MYPAINT_VERSION_FORMAL".data : List Char) =
      "MYPAINT_VERSION_BASE".data)]
    simp
  have ha3 : applyAssign ⟨some b, some f, none⟩
      ("MYPAINT_VERSION_CEREMONIAL".data ++ '=' :: pyRepr c) =
      ⟨some b, some f, some c⟩ := by
    unfold applyAssign
    rw [parseAssign_line _ _ c (by decide) (evalPyLit_pyRepr c hc)]
    simp only [if_neg (by decide : ¬("MYPAINT_VERSION_CEREMONIAL".data : List Char) =
      "MYPAINT_VERSION_BASE".data),
      if_neg (by decide : ¬("MYPAINT_VERSION_CEREMONIAL".data : List Char) =
      "MYPAINT_VERSION_FORMAL".data)]
    simp
  unfold execReleaseInfo
  rw [hsplit]
  simp only [List.foldl_cons, List.foldl_nil]
  rw [ha1, ha2, ha3]
  rfl

/-- Witness for C6 at a concrete resolved triple. -/
theorem C6_witness :
    execReleaseInfo
      (releaseInfoScript
        ⟨"1.2.0-beta.0".data, "1.2.0-beta.0.4".data,
          "1.2.0-beta.0.4+gitexport.1a2b3c4.dirty".data⟩) =
      ⟨some "1.2.0-beta.0".data, some "1.2.0-beta.0.4".data,
        some "1.2.0-beta.0.4+gitexport.1a2b3c4.dirty".data⟩ :=
  C6_release_info_round_trip "1.2.0-beta.0".data "1.2.0-beta.0.4".data
    "1.2.0-beta.0.4+gitexport.1a2b3c4.dirty".data
    (by decide) (by decide) (by decide)
